import Mathlib

set_option maxRecDepth 100000

/-!
Shallow embedding of the analysis engine of the kubecase repository
(src/generate_resource_report.py and src/kubecase/generate_pdb_report.py).

Modelling conventions:
- Python floats are modelled as exact rationals; the builtin round
  function (round half to even) is modelled by pyRound / pyRoundTo.
- Python strings are modelled by Lean String; the builtins float(s) and
  int(s) are modelled by pyFloat / pyInt for ASCII decimal literals with
  an optional sign, which covers every quantity string shape the engine
  distinguishes.
- Python dicts of JSON data are modelled as association lists looked up
  with assocLookup; defaultdict and Counter mutation are modelled by the
  pure update functions updGroup and counterIncr.
- A function that Python would let raise but whose callers catch the
  exception is modelled by the Option result of pyFloat / pyInt; the
  embedded functions are total, which models that they never raise.
-/

/-- Models the ASCII digit test used by str.isdigit and number parsing. -/
def isAsciiDigit (c : Char) : Bool := '0' ≤ c && c ≤ '9'

/-- Decimal value of a list of ASCII digit characters. -/
def digitsVal (l : List Char) : ℕ := l.foldl (fun a c => a * 10 + (c.toNat - 48)) 0

/-- Models str.isdigit restricted to ASCII digits. -/
def pyIsDigit (s : String) : Bool := !s.data.isEmpty && s.data.all isAsciiDigit

/-- Removes the first dot of a character list, modelling str.replace with count 1. -/
def replaceFirstDotL : List Char → List Char
  | [] => []
  | c :: rest => if c = '.' then rest else c :: replaceFirstDotL rest

/-- Models s.replace of the first dot by the empty string. -/
def replaceFirstDot (s : String) : String := String.mk (replaceFirstDotL s.data)

/-- Unsigned part of the Python float literal grammar: digits with at most
one dot, at least one digit. Returns the exact rational value. -/
def pyFloatCore (l : List Char) : Option ℚ :=
  let ip := l.takeWhile isAsciiDigit
  match l.dropWhile isAsciiDigit with
  | [] => if ip.isEmpty then none else some (digitsVal ip)
  | '.' :: rest2 =>
    let fp := rest2.takeWhile isAsciiDigit
    if (rest2.dropWhile isAsciiDigit).isEmpty && !(ip.isEmpty && fp.isEmpty) then
      some ((digitsVal ip : ℚ) + (digitsVal fp : ℚ) / (10 : ℚ) ^ fp.length)
    else none
  | _ => none

/-- Models the Python builtin float on string input (ASCII decimal
literals with an optional leading sign); none models a ValueError. -/
def pyFloat (s : String) : Option ℚ :=
  match s.data with
  | [] => none
  | c :: rest =>
    if c = '-' then (pyFloatCore rest).map (fun q => -q)
    else if c = '+' then pyFloatCore rest
    else pyFloatCore (c :: rest)

/-- Unsigned part of the Python int literal grammar. -/
def pyIntCore (l : List Char) : Option ℤ :=
  if !l.isEmpty && l.all isAsciiDigit then some (digitsVal l) else none

/-- Models the Python builtin int on string input; none models a ValueError. -/
def pyInt (s : String) : Option ℤ :=
  match s.data with
  | [] => none
  | c :: rest =>
    if c = '-' then (pyIntCore rest).map (fun z => -z)
    else if c = '+' then pyIntCore rest
    else pyIntCore (c :: rest)

/-- Models the Python builtin round to an integer: round half to even. -/
def pyRound (q : ℚ) : ℤ :=
  let f : ℤ := q.floor
  let frac : ℚ := q - f
  if frac < 1 / 2 then f
  else if frac > 1 / 2 then f + 1
  else if f % 2 = 0 then f else f + 1

/-- Models the Python builtin round with a digit count argument. -/
def pyRoundTo (nd : ℕ) (q : ℚ) : ℚ := (pyRound (q * 10 ^ nd) : ℚ) / 10 ^ nd

/-- Models s.endswith on whole character lists. -/
def strEnds (s suf : String) : Bool :=
  decide (suf.data.length ≤ s.data.length) &&
  decide (s.data.drop (s.data.length - suf.data.length) = suf.data)

/-- Models the Python slice s up to -n, by characters. -/
def strTail (s : String) (n : ℕ) : String := String.mk (s.data.take (s.data.length - n))

/-- Tests whether the first list is an initial segment of the second. -/
def listPre : List Char → List Char → Bool
  | [], _ => true
  | _ :: _, [] => false
  | a :: as, b :: bs => a = b && listPre as bs

/-- Models s.startswith. -/
def strHasPre (s pre : String) : Bool := listPre pre.data s.data

/-- Substring search on character lists, modelling the Python in operator. -/
def listSub (pat : List Char) : List Char → Bool
  | [] => pat.isEmpty
  | c :: rest => listPre pat (c :: rest) || listSub pat rest

/-- Models the Python in operator on strings. -/
def strHasSub (s pat : String) : Bool := listSub pat.data s.data

/-- Association list lookup, modelling dict.get with first-match semantics. -/
def assocLookup {α : Type} : List (String × α) → String → Option α
  | [], _ => none
  | (k2, v) :: rest, k => if k2 = k then some v else assocLookup rest k

/-- Models dict.get with a default value. -/
def assocGetD {α : Type} (l : List (String × α)) (k : String) (d : α) : α :=
  (assocLookup l k).getD d

/-- Models str.lower for ASCII letters. -/
def pyLower (s : String) : String := String.mk (s.data.map Char.toLower)

/-- Error text of the Python ValueError raised by int on a bad literal. -/
def intErrMsg (v : String) : String :=
  "invalid literal for int() with base 10: \x27" ++ v ++ "\x27"

/-- Error text of the Python ValueError raised by float on a bad literal. -/
def floatErrMsg (v : String) : String :=
  "could not convert string to float: \x27" ++ v ++ "\x27"

/-- Embeds parse_cpu of src/generate_resource_report.py. The Option input
models an argument that may be None; none and the empty string are the
falsy inputs of the first early return. -/
def parse_cpu (cpu_str : Option String) : ℚ × Option String :=
  match cpu_str with
  | none => (0, none)
  | some s =>
    if s = "" then (0, none)
    else if strEnds s "m" then
      match pyFloat (strTail s 1) with
      | some v => (pyRoundTo 2 (v / 1000), none)
      | none => (0, some ("Unable to parse CPU value \x27" ++ s ++ "\x27"))
    else if pyIsDigit (replaceFirstDot s) then
      match pyFloat s with
      | some v => (pyRoundTo 2 v, none)
      | none => (0, some ("Unable to parse CPU value \x27" ++ s ++ "\x27"))
    else (0, some ("Invalid CPU value \x27" ++ s ++ "\x27"))

/-- Embeds parse_mem of src/generate_resource_report.py; the result unit
is MiB. The suffix tests are ordered exactly as in the source. -/
def parse_mem (mem_str : Option String) : ℚ × Option String :=
  match mem_str with
  | none => (0, none)
  | some s =>
    if s = "" then (0, none)
    else if strEnds s "Ki" then
      match pyInt (strTail s 2) with
      | some v => (pyRoundTo 2 ((v : ℚ) / 1024), none)
      | none => (0, some ("Unable to parse memory value \x27" ++ s ++ "\x27"))
    else if strEnds s "Mi" then
      match pyFloat (strTail s 2) with
      | some v => (pyRoundTo 2 v, none)
      | none => (0, some ("Unable to parse memory value \x27" ++ s ++ "\x27"))
    else if strEnds s "Gi" then
      match pyFloat (strTail s 2) with
      | some v => (pyRoundTo 2 (v * 1024), none)
      | none => (0, some ("Unable to parse memory value \x27" ++ s ++ "\x27"))
    else if strEnds s "Ti" then
      match pyFloat (strTail s 2) with
      | some v => (pyRoundTo 2 (v * 1024 * 1024), none)
      | none => (0, some ("Unable to parse memory value \x27" ++ s ++ "\x27"))
    else if strEnds s "K" then
      match pyFloat (strTail s 1) with
      | some v => (pyRoundTo 2 (v / 1024), none)
      | none => (0, some ("Unable to parse memory value \x27" ++ s ++ "\x27"))
    else if strEnds s "M" then
      match pyFloat (strTail s 1) with
      | some v => (pyRoundTo 2 v, none)
      | none => (0, some ("Unable to parse memory value \x27" ++ s ++ "\x27"))
    else if strEnds s "G" then
      match pyFloat (strTail s 1) with
      | some v => (pyRoundTo 2 (v * 1024), none)
      | none => (0, some ("Unable to parse memory value \x27" ++ s ++ "\x27"))
    else if strEnds s "T" then
      match pyFloat (strTail s 1) with
      | some v => (pyRoundTo 2 (v * 1024 * 1024), none)
      | none => (0, some ("Unable to parse memory value \x27" ++ s ++ "\x27"))
    else if strEnds s "m" then
      match pyFloat (strTail s 1) with
      | some v => (pyRoundTo 2 (v * (1 / 1000 / 1048576)),
                   some "Non-standard memory unit \x27m\x27 used")
      | none => (0, some ("Unable to parse memory value \x27" ++ s ++ "\x27"))
    else
      match pyFloat s with
      | some v => (pyRoundTo 2 (v / (1024 * 1024)), none)
      | none => (0, some ("Unable to parse memory value \x27" ++ s ++ "\x27"))

/-- Count-style quota resource names of parse_quota_value. -/
def countKeys : List String := ["pods", "secrets", "configmaps", "persistentvolumeclaims"]

/-- Embeds parse_quota_value of src/generate_resource_report.py. The broad
except branch of the source catches only the int and float conversion
errors, since parse_cpu and parse_mem never raise. -/
def parse_quota_value (resource_key raw_value : String) : ℚ × Option String :=
  if strHasSub resource_key "cpu" then parse_cpu (some raw_value)
  else if strHasSub resource_key "memory" || strHasSub resource_key "storage" ||
          strHasSub resource_key "ephemeral-storage" then parse_mem (some raw_value)
  else if strHasPre resource_key "count/" || countKeys.contains resource_key then
    match pyInt raw_value with
    | some n => ((n : ℚ), none)
    | none => (0, some ("Parse error for \x27" ++ resource_key ++ "\x27: " ++ intErrMsg raw_value))
  else
    match pyFloat raw_value with
    | some v => (v, none)
    | none => (0, some ("Parse error for \x27" ++ resource_key ++ "\x27: " ++ floatErrMsg raw_value))

/-- Embeds one ResourceQuota object as used by parse_quota: the used and
hard maps of its status. -/
structure QuotaItem where
  used : List (String × String)
  hard : List (String × String)
deriving DecidableEq

/-- One row of the table built by parse_quota. -/
structure QuotaRow where
  resource : String
  used : String
  hard : String
  usage_percent : ℚ
  flags : String
deriving DecidableEq

/-- Loop body of parse_quota for one resource name of the hard map. -/
def quotaRow (usedMap : List (String × String)) (resource hard_val : String) : QuotaRow :=
  let used_val := assocGetD usedMap resource "0"
  let usedP := parse_quota_value resource used_val
  let hardP := parse_quota_value resource hard_val
  let usage_percent := if hardP.1 > 0 then pyRoundTo 1 (usedP.1 / hardP.1 * 100) else 0
  let flagsJoined :=
    String.intercalate "; " (([usedP.2, hardP.2].filterMap id).filter (fun f => f ≠ ""))
  { resource := resource, used := used_val, hard := hard_val,
    usage_percent := usage_percent,
    flags := if flagsJoined = "" then "OK" else flagsJoined }

/-- Embeds parse_quota of src/generate_resource_report.py: one row per
resource name of each hard map, in order. -/
def parse_quota : List QuotaItem → List QuotaRow
  | [] => []
  | it :: rest => it.hard.map (fun kv => quotaRow it.used kv.1 kv.2) ++ parse_quota rest

/-- Embeds one entry of the ownerReferences list of a pod. -/
structure OwnerRef where
  kind : String
  name : String
deriving DecidableEq

/-- Embeds the fields of metadata used by the engine. -/
structure PodMeta where
  name : String
  labels : List (String × String)
  ownerReferences : List OwnerRef
deriving DecidableEq

/-- Embeds one container spec: its name and the requests and limits maps
of its resources block; an absent block collapses to the empty map, which
is exactly how the source reads it through chained dict.get defaults. -/
structure Container where
  name : String
  requests : List (String × String)
  limits : List (String × String)
deriving DecidableEq

/-- Embeds one pod record: metadata, spec.containers, status.qosClass. -/
structure Pod where
  metadata : PodMeta
  containers : List Container
  qos : Option String
deriving DecidableEq

/-- Embeds extract_controller_name of src/generate_resource_report.py. -/
def extract_controller_name (pod : Pod) : String :=
  match pod.metadata.ownerReferences with
  | [] => "standalone/" ++ pod.metadata.name
  | owner :: _ => pyLower owner.kind ++ "/" ++ owner.name

/-- The per-controller accumulator of aggregate_resources_by_controller;
flags is the Counter, kept as an association list in insertion order. -/
structure Aggregate where
  pod_count : ℕ
  cpu_req : ℚ
  cpu_lim : ℚ
  mem_req : ℚ
  mem_lim : ℚ
  es_req : ℚ
  es_lim : ℚ
  flags : List (String × ℕ)
deriving DecidableEq

/-- The value a defaultdict entry starts from in aggregate_resources_by_controller. -/
def emptyAggregate : Aggregate :=
  { pod_count := 0, cpu_req := 0, cpu_lim := 0, mem_req := 0, mem_lim := 0,
    es_req := 0, es_lim := 0, flags := [] }

/-- Models incrementing a Counter entry by one. -/
def counterIncr : List (String × ℕ) → String → List (String × ℕ)
  | [], k => [(k, 1)]
  | (k2, n) :: rest, k => if k2 = k then (k2, n + 1) :: rest else (k2, n) :: counterIncr rest k

/-- Models reading a Counter entry (zero when absent). -/
def counterCount (c : List (String × ℕ)) (k : String) : ℕ := (assocLookup c k).getD 0

/-- Models the flag collection loop of aggregate_resources_by_controller:
every truthy flag is tallied into the Counter. -/
def flagsTally (c : List (String × ℕ)) : List (Option String) → List (String × ℕ)
  | [] => c
  | none :: rest => flagsTally c rest
  | some f :: rest => if f = "" then flagsTally c rest else flagsTally (counterIncr c f) rest

/-- The six parse results of one container in the order the source tallies
their flags: cpu request, cpu limit, memory request, memory limit,
ephemeral-storage request, ephemeral-storage limit. -/
def contParses (c : Container) : List (ℚ × Option String) :=
  [parse_cpu (assocLookup c.requests "cpu"),
   parse_cpu (assocLookup c.limits "cpu"),
   parse_mem (assocLookup c.requests "memory"),
   parse_mem (assocLookup c.limits "memory"),
   parse_mem (assocLookup c.requests "ephemeral-storage"),
   parse_mem (assocLookup c.limits "ephemeral-storage")]

/-- Container body of the aggregation loop: adds the six normalized values
into the running sums and tallies the parse flags. -/
def addContainer (a : Aggregate) (c : Container) : Aggregate :=
  let cpuR := parse_cpu (assocLookup c.requests "cpu")
  let cpuL := parse_cpu (assocLookup c.limits "cpu")
  let memR := parse_mem (assocLookup c.requests "memory")
  let memL := parse_mem (assocLookup c.limits "memory")
  let esR := parse_mem (assocLookup c.requests "ephemeral-storage")
  let esL := parse_mem (assocLookup c.limits "ephemeral-storage")
  { a with
    cpu_req := a.cpu_req + cpuR.1, cpu_lim := a.cpu_lim + cpuL.1,
    mem_req := a.mem_req + memR.1, mem_lim := a.mem_lim + memL.1,
    es_req := a.es_req + esR.1, es_lim := a.es_lim + esL.1,
    flags := flagsTally a.flags [cpuR.2, cpuL.2, memR.2, memL.2, esR.2, esL.2] }

/-- Everything the pod loop of aggregate_resources_by_controller does to
the aggregate of the controller key of one pod: the standalone flag, the
pod count, then every container. -/
def addPodToAgg (a : Aggregate) (p : Pod) : Aggregate :=
  let a1 :=
    if strHasPre (extract_controller_name p) "standalone/" then
      { a with flags := counterIncr a.flags "Standalone pod without controller" }
    else a
  let a2 := { a1 with pod_count := a1.pod_count + 1 }
  p.containers.foldl addContainer a2

/-- Updates the entry of one key of the grouped map, inserting the
defaultdict default when the key is new. -/
def updGroup : List (String × Aggregate) → String → (Aggregate → Aggregate) →
    List (String × Aggregate)
  | [], k, f => [(k, f emptyAggregate)]
  | (k2, a) :: rest, k, f =>
    if k2 = k then (k2, f a) :: rest else (k2, a) :: updGroup rest k f

/-- One iteration of the pod loop: all mutations hit the entry of the
controller key of the pod, so they compose into one update. -/
def addPod (g : List (String × Aggregate)) (p : Pod) : List (String × Aggregate) :=
  updGroup g (extract_controller_name p) (fun a => addPodToAgg a p)

/-- The grouped_data map after the pod loop of aggregate_resources_by_controller. -/
def groupPods (pods : List Pod) : List (String × Aggregate) := pods.foldl addPod []

/-- Renders one Counter item the way format_flag_counts does. -/
def renderFlag (p : String × ℕ) : String :=
  if p.2 > 1 then p.1 ++ " (" ++ toString p.2 ++ "x)" else p.1

/-- The order sorted uses on Counter items: lexicographic on the pair. -/
def pairLe (a b : String × ℕ) : Prop := a.1 < b.1 ∨ (a.1 = b.1 ∧ a.2 ≤ b.2)

instance : DecidableRel pairLe := fun a b => by
  unfold pairLe; infer_instance

/-- Models the Python builtin sorted on Counter items. -/
def sortedItems (c : List (String × ℕ)) : List (String × ℕ) := List.insertionSort pairLe c

/-- Embeds format_flag_counts of src/generate_resource_report.py. -/
def format_flag_counts (c : List (String × ℕ)) : String :=
  if c.isEmpty then "OK"
  else String.intercalate "; " ((sortedItems c).map renderFlag)

/-- One finalized row of the controller table: summed quantities rounded
to two decimals and the flag Counter rendered. -/
structure AggregateRow where
  controller : String
  pod_count : ℕ
  cpu_req : ℚ
  cpu_lim : ℚ
  mem_req : ℚ
  mem_lim : ℚ
  es_req : ℚ
  es_lim : ℚ
  flagsStr : String
deriving DecidableEq

/-- Embeds aggregate_resources_by_controller of src/generate_resource_report.py:
the grouped map finalized into rows. -/
def aggregate_resources_by_controller (pods : List Pod) : List AggregateRow :=
  (groupPods pods).map (fun ka =>
    { controller := ka.1, pod_count := ka.2.pod_count,
      cpu_req := pyRoundTo 2 ka.2.cpu_req, cpu_lim := pyRoundTo 2 ka.2.cpu_lim,
      mem_req := pyRoundTo 2 ka.2.mem_req, mem_lim := pyRoundTo 2 ka.2.mem_lim,
      es_req := pyRoundTo 2 ka.2.es_req, es_lim := pyRoundTo 2 ka.2.es_lim,
      flagsStr := format_flag_counts ka.2.flags })

/-- Embeds one PodDisruptionBudget record: spec.selector.matchLabels,
absent levels collapsing to the empty map through dict.get chains. -/
structure PDB where
  matchLabels : List (String × String)
deriving DecidableEq

/-- The result record of get_namespace_coverage. -/
structure CoverageResult where
  total_pods : ℕ
  covered_pods : List Pod
  uncovered_pods : List Pod
  coverage_percentage : ℚ
deriving DecidableEq

/-- Tests whether one matchLabels selector matches the labels of a pod:
every selector key must be present with the selector value. -/
def selMatches (labels : List (String × String)) (sel : List (String × String)) : Bool :=
  sel.all (fun kv => assocLookup labels kv.1 == some kv.2)

/-- Tests whether any collected selector matches the pod. -/
def podCovered (selectors : List (List (String × String))) (p : Pod) : Bool :=
  selectors.any (selMatches p.metadata.labels)

/-- Embeds get_namespace_coverage of src/kubecase/generate_pdb_report.py. -/
def get_namespace_coverage (pods : List Pod) (pdbs : List PDB) : CoverageResult :=
  let pdb_selectors := (pdbs.map (fun pdb => pdb.matchLabels)).filter (fun sel => !sel.isEmpty)
  let covered_pods := pods.filter (podCovered pdb_selectors)
  let uncovered_pods := pods.filter (fun p => !podCovered pdb_selectors p)
  let total_pods := pods.length
  let coverage_percentage : ℚ :=
    if total_pods > 0 then ((covered_pods.length : ℚ) / (total_pods : ℚ)) * 100 else 0
  { total_pods := total_pods, covered_pods := covered_pods,
    uncovered_pods := uncovered_pods,
    coverage_percentage := pyRoundTo 0 coverage_percentage }

/-- One row of the per-pod container table of get_container_details. -/
structure ContainerRow where
  container : String
  cpu_req : String
  cpu_lim : String
  mem_req : String
  mem_lim : String
  es_req : String
  es_lim : String
  qos : String
  flags : List String
  flagsStr : String
deriving DecidableEq

/-- Embeds the per-container body of get_container_details of
src/generate_resource_report.py, including its flag rules. -/
def containerRow (qos : String) (c : Container) : ContainerRow :=
  let cpu_req := assocGetD c.requests "cpu" "-"
  let cpu_lim := assocGetD c.limits "cpu" "-"
  let mem_req := assocGetD c.requests "memory" "-"
  let mem_lim := assocGetD c.limits "memory" "-"
  let es_req := assocGetD c.requests "ephemeral-storage" "-"
  let es_lim := assocGetD c.limits "ephemeral-storage" "-"
  let has_req := cpu_req != "-" || mem_req != "-" || es_req != "-"
  let has_lim := cpu_lim != "-" || mem_lim != "-" || es_lim != "-"
  let flags : List String :=
    (if !has_req && !has_lim then ["Missing resources"] else []) ++
    (if cpu_req == "-" && mem_req == "-" && es_req == "-" then ["No requests"] else []) ++
    (if cpu_lim == "-" && mem_lim == "-" && es_lim == "-" then ["No limits"] else []) ++
    (if cpu_req != "-" && cpu_lim != "-" && decide (cpu_lim < cpu_req) then
      ["CPU req > lim"] else [])
  { container := c.name, cpu_req := cpu_req, cpu_lim := cpu_lim,
    mem_req := mem_req, mem_lim := mem_lim, es_req := es_req, es_lim := es_lim,
    qos := qos,
    flags := flags,
    flagsStr := if flags.isEmpty then "OK" else String.intercalate ", " flags }

/-- Embeds get_container_details: rows grouped per pod name, the QoS class
read from status with default Unknown. -/
def get_container_details (pods : List Pod) : List (String × List ContainerRow) :=
  pods.map (fun p =>
    (p.metadata.name, p.containers.map (containerRow (p.qos.getD "Unknown"))))

/-- Structural failure condition of parse_cpu: the cases of the source
that produce an error flag. -/
def cpuFailsB (s : String) : Bool :=
  s != "" &&
  (if strEnds s "m" then (pyFloat (strTail s 1)).isNone
   else !pyIsDigit (replaceFirstDot s) || (pyFloat s).isNone)

/-- Structural failure condition of parse_mem: the selected branch of the
source raises a ValueError that the except clause turns into a flag. -/
def memFailsB (s : String) : Bool :=
  s != "" &&
  (if strEnds s "Ki" then (pyInt (strTail s 2)).isNone
   else if strEnds s "Mi" then (pyFloat (strTail s 2)).isNone
   else if strEnds s "Gi" then (pyFloat (strTail s 2)).isNone
   else if strEnds s "Ti" then (pyFloat (strTail s 2)).isNone
   else if strEnds s "K" then (pyFloat (strTail s 1)).isNone
   else if strEnds s "M" then (pyFloat (strTail s 1)).isNone
   else if strEnds s "G" then (pyFloat (strTail s 1)).isNone
   else if strEnds s "T" then (pyFloat (strTail s 1)).isNone
   else if strEnds s "m" then (pyFloat (strTail s 1)).isNone
   else (pyFloat s).isNone)

/-- Structural failure condition of parse_quota_value, following its
dispatch on the resource key. -/
def quotaFailsB (k v : String) : Bool :=
  if strHasSub k "cpu" then cpuFailsB v
  else if strHasSub k "memory" || strHasSub k "storage" ||
          strHasSub k "ephemeral-storage" then memFailsB v
  else if strHasPre k "count/" || countKeys.contains k then (pyInt v).isNone
  else (pyFloat v).isNone

def quotaItemA : QuotaItem := { used := [("limits.cpu", "500m")], hard := [("limits.cpu", "2")] }

def quotaItemB : QuotaItem := { used := [], hard := [("pods", "0")] }

def quotaItemsEx : List QuotaItem := [quotaItemA, quotaItemB]

instance : IsTotal (String × ℕ) pairLe :=
  ⟨fun a b => by
    rcases lt_trichotomy a.1 b.1 with h | h | h
    · exact Or.inl (Or.inl h)
    · rcases Nat.le_total a.2 b.2 with h2 | h2
      · exact Or.inl (Or.inr ⟨h, h2⟩)
      · exact Or.inr (Or.inr ⟨h.symm, h2⟩)
    · exact Or.inr (Or.inl h)⟩

instance : IsTrans (String × ℕ) pairLe :=
  ⟨fun a b c hab hbc => by
    rcases hab with h1 | ⟨e1, l1⟩
    · rcases hbc with h2 | ⟨e2, l2⟩
      · exact Or.inl (h1.trans h2)
      · exact Or.inl (e2 ▸ h1)
    · rcases hbc with h2 | ⟨e2, l2⟩
      · exact Or.inl (e1 ▸ h2)
      · exact Or.inr ⟨e1.trans e2, l1.trans l2⟩⟩

/-- The coverage condition of a pod, spelled as the claim states it: some
PDB has a nonempty matchLabels selector every key of which carries the
same value in the pod labels. -/
def coveredProp (pdbs : List PDB) (p : Pod) : Prop :=
  ∃ pdb ∈ pdbs, pdb.matchLabels ≠ [] ∧
    ∀ kv ∈ pdb.matchLabels, assocLookup p.metadata.labels kv.1 = some kv.2

def pdbX : PDB := { matchLabels := [("app", "x")] }

def mkPodL (n : String) (lbl : List (String × String)) : Pod :=
  { metadata := { name := n, labels := lbl, ownerReferences := [] },
    containers := [], qos := none }

/-- Ten pods of which exactly seven carry the label app equal x. -/
def tenPods : List Pod :=
  [mkPodL "p1" [("app", "x")], mkPodL "p2" [("app", "x")], mkPodL "p3" [("app", "x")],
   mkPodL "p4" [("app", "x")], mkPodL "p5" [("app", "x")], mkPodL "p6" [("app", "x")],
   mkPodL "p7" [("app", "x")], mkPodL "p8" [("app", "y")], mkPodL "p9" [],
   mkPodL "p10" [("b", "c")]]

/-- The six per-container parse flags in tally order. -/
def contFlags (c : Container) : List (Option String) :=
  [(parse_cpu (assocLookup c.requests "cpu")).2,
   (parse_cpu (assocLookup c.limits "cpu")).2,
   (parse_mem (assocLookup c.requests "memory")).2,
   (parse_mem (assocLookup c.limits "memory")).2,
   (parse_mem (assocLookup c.requests "ephemeral-storage")).2,
   (parse_mem (assocLookup c.limits "ephemeral-storage")).2]

/-- Normalized CPU request of one container. -/
def contCpuReq (c : Container) : ℚ := (parse_cpu (assocLookup c.requests "cpu")).1

/-- Normalized CPU limit of one container. -/
def contCpuLim (c : Container) : ℚ := (parse_cpu (assocLookup c.limits "cpu")).1

/-- Normalized memory request of one container. -/
def contMemReq (c : Container) : ℚ := (parse_mem (assocLookup c.requests "memory")).1

/-- Normalized memory limit of one container. -/
def contMemLim (c : Container) : ℚ := (parse_mem (assocLookup c.limits "memory")).1

/-- Normalized ephemeral-storage request of one container. -/
def contEsReq (c : Container) : ℚ := (parse_mem (assocLookup c.requests "ephemeral-storage")).1

/-- Normalized ephemeral-storage limit of one container. -/
def contEsLim (c : Container) : ℚ := (parse_mem (assocLookup c.limits "ephemeral-storage")).1

/-- Sum of one normalized measure over the containers of a pod. -/
def podSum (f : Container → ℚ) (p : Pod) : ℚ := (p.containers.map f).sum

/-- The pods of a list whose controller key is a given key. -/
def podsForKey (pods : List Pod) (k : String) : List Pod :=
  pods.filter (fun p => extract_controller_name p == k)

def ownerWeb : OwnerRef := { kind := "Deployment", name := "web" }

/-- Two pods owned by the same Deployment, each with one container
requesting 250m CPU. -/
def podC5A : Pod :=
  { metadata := { name := "web-1", labels := [], ownerReferences := [ownerWeb] },
    containers := [{ name := "c", requests := [("cpu", "250m")], limits := [] }],
    qos := none }

def podC5B : Pod :=
  { metadata := { name := "web-2", labels := [], ownerReferences := [ownerWeb] },
    containers := [{ name := "c", requests := [("cpu", "250m")], limits := [] }],
    qos := none }

def podsC5 : List Pod := [podC5A, podC5B]

def aggC5 : Aggregate :=
  { pod_count := 2, cpu_req := 1 / 2, cpu_lim := 0, mem_req := 0, mem_lim := 0,
    es_req := 0, es_lim := 0, flags := [] }

/-- A pod that does carry an owner reference, whose kind lowercases to
the word standalone. -/
def ownerStandaloneKind : OwnerRef := { kind := "Standalone", name := "x" }

def podC7x : Pod :=
  { metadata := { name := "p", labels := [], ownerReferences := [ownerStandaloneKind] },
    containers := [], qos := none }

def aggC7x : Aggregate :=
  { pod_count := 1, cpu_req := 0, cpu_lim := 0, mem_req := 0, mem_lim := 0,
    es_req := 0, es_lim := 0, flags := [("Standalone pod without controller", 1)] }

def podSolo : Pod :=
  { metadata := { name := "solo", labels := [], ownerReferences := [] },
    containers := [], qos := none }

def aggSolo : Aggregate :=
  { pod_count := 1, cpu_req := 0, cpu_lim := 0, mem_req := 0, mem_lim := 0,
    es_req := 0, es_lim := 0, flags := [("Standalone pod without controller", 1)] }

def podOwned : Pod :=
  { metadata := { name := "web-1", labels := [], ownerReferences := [ownerWeb] },
    containers := [], qos := none }

theorem strEq_of_data {s1 s2 : String} (h : s1.data = s2.data) : s1 = s2 := by
  cases s1; cases s2; exact congrArg String.mk h

theorem append_ne_empty_of_left (a b : String) (ha : a.data ≠ []) : a ++ b ≠ "" := by
  intro h
  have hd : a.data ++ b.data = [] := congrArg String.data h
  exact ha (List.append_eq_nil.mp hd).1

theorem append_data_ne (a b : String) (ha : a.data ≠ []) : (a ++ b).data ≠ [] := by
  have hd : (a ++ b).data = a.data ++ b.data := rfl
  rw [hd]
  simp [ha]

theorem msg_ne_empty (a b c : String) (ha : a.data ≠ []) : a ++ b ++ c ≠ "" := by
  intro h
  have hd : (a.data ++ b.data) ++ c.data = [] := congrArg String.data h
  exact ha (List.append_eq_nil.mp (List.append_eq_nil.mp hd).1).1

theorem strEnds_append (s t : String) : strEnds (s ++ t) t = true := by
  have hd : (s ++ t).data = s.data ++ t.data := rfl
  simp only [strEnds, hd, List.length_append, Bool.and_eq_true, decide_eq_true_eq]
  constructor
  · exact Nat.le_add_left _ _
  · have : s.data.length + t.data.length - t.data.length = s.data.length := by omega
    rw [this, List.drop_left]

theorem strTail_append (s t : String) : strTail (s ++ t) t.data.length = s := by
  apply strEq_of_data
  have hd : (s ++ t).data = s.data ++ t.data := rfl
  simp only [strTail, hd, List.length_append]
  have : s.data.length + t.data.length - t.data.length = s.data.length := by omega
  rw [this, List.take_left]

theorem pyFloat_digits (s : String) (h1 : s.data ≠ []) (h2 : ∀ c ∈ s.data, isAsciiDigit c = true) :
    pyFloat s = some ((digitsVal s.data : ℚ)) := by
  unfold pyFloat
  cases hs : s.data with
  | nil => exact absurd hs h1
  | cons c rest =>
    have hc : isAsciiDigit c = true := h2 c (hs ▸ List.mem_cons_self c rest)
    have hcm : c ≠ '-' := by rintro rfl; exact absurd hc (by decide)
    have hcp : c ≠ '+' := by rintro rfl; exact absurd hc (by decide)
    simp only [hcm, hcp, if_false]
    have hall : ∀ x ∈ c :: rest, isAsciiDigit x = true := by
      intro x hx; exact h2 x (hs ▸ hx)
    unfold pyFloatCore
    rw [List.dropWhile_eq_nil_iff.mpr hall, List.takeWhile_eq_self_iff.mpr hall]
    simp

/-- Claim C1 (amended): for every CPU quantity string of the shape digits
followed by m, parse_cpu returns the millicore value divided by 1000 and
then rounded to two decimal places, with no flag. The unrounded value
n / 1000 claimed originally is not what the source returns. -/
theorem claim_C1_thm (s : String) (h1 : s.data ≠ [])
    (h2 : ∀ c ∈ s.data, isAsciiDigit c = true) :
    parse_cpu (some (s ++ "m")) = (pyRoundTo 2 ((digitsVal s.data : ℚ) / 1000), none) := by
  have hne : (s ++ "m") ≠ "" := append_ne_empty_of_left s "m" h1
  have hends : strEnds (s ++ "m") "m" = true := strEnds_append s "m"
  have htail : strTail (s ++ "m") 1 = s := strTail_append s "m"
  simp only [parse_cpu]
  rw [if_neg hne, if_pos hends, htail, pyFloat_digits s h1 h2]

/-- Claim C1 counterexample: at n equal one, the claimed exact value
1 / 1000 is not returned, because the source rounds to two decimals. -/
theorem claim_C1_counterexample :
    parse_cpu (some "1m") ≠ ((1 : ℚ) / 1000, none) ∧ parse_cpu (some "1m") = (0, none) := by
  constructor
  · intro h
    have : (0 : ℚ) = 1 / 1000 := congrArg Prod.fst (by
      calc (0, (none : Option String)) = parse_cpu (some "1m") := by with_unfolding_all decide
      _ = ((1 : ℚ) / 1000, none) := h)
    norm_num at this
  · with_unfolding_all decide

theorem claim_C1_witness :
    ("250" : String).data ≠ [] ∧ (∀ c ∈ ("250" : String).data, isAsciiDigit c = true) ∧
    parse_cpu (some ("250" ++ "m")) =
      (pyRoundTo 2 ((digitsVal ("250" : String).data : ℚ) / 1000), none) ∧
    pyRoundTo 2 ((digitsVal ("250" : String).data : ℚ) / 1000) = 1 / 4 :=
  ⟨by decide, by decide,
   claim_C1_thm "250" (by decide) (by decide),
   by with_unfolding_all decide⟩

theorem parse_cpu_fail_spec (s : String) (h : cpuFailsB s = true) :
    ∃ f, parse_cpu (some s) = (0, some f) ∧ f ≠ "" := by
  simp only [cpuFailsB, Bool.and_eq_true, bne_iff_ne, ne_eq] at h
  obtain ⟨hne, hbr⟩ := h
  simp only [parse_cpu]
  rw [if_neg hne]
  by_cases hm : strEnds s "m" = true
  · rw [if_pos hm] at hbr ⊢
    cases hv : pyFloat (strTail s 1) with
    | some v => rw [hv] at hbr; simp at hbr
    | none =>
      refine ⟨_, rfl, msg_ne_empty _ s _ (by decide)⟩
  · rw [if_neg hm] at hbr ⊢
    by_cases hd : pyIsDigit (replaceFirstDot s) = true
    · rw [if_pos hd]
      simp only [hd, Bool.not_true, Bool.false_or] at hbr
      cases hv : pyFloat s with
      | some v => rw [hv] at hbr; simp at hbr
      | none => exact ⟨_, rfl, msg_ne_empty _ s _ (by decide)⟩
    · rw [if_neg hd]
      exact ⟨_, rfl, msg_ne_empty _ s _ (by decide)⟩

theorem parse_mem_fail_spec (s : String) (h : memFailsB s = true) :
    ∃ f, parse_mem (some s) = (0, some f) ∧ f ≠ "" := by
  simp only [memFailsB, Bool.and_eq_true, bne_iff_ne, ne_eq] at h
  obtain ⟨hne, hbr⟩ := h
  simp only [parse_mem]
  rw [if_neg hne]
  by_cases h1 : strEnds s "Ki" = true
  · rw [if_pos h1] at hbr ⊢
    cases hv : pyInt (strTail s 2) with
    | some v => rw [hv] at hbr; simp at hbr
    | none => exact ⟨_, rfl, msg_ne_empty _ s _ (by decide)⟩
  · rw [if_neg h1] at hbr ⊢
    by_cases h2 : strEnds s "Mi" = true
    · rw [if_pos h2] at hbr ⊢
      cases hv : pyFloat (strTail s 2) with
      | some v => rw [hv] at hbr; simp at hbr
      | none => exact ⟨_, rfl, msg_ne_empty _ s _ (by decide)⟩
    · rw [if_neg h2] at hbr ⊢
      by_cases h3 : strEnds s "Gi" = true
      · rw [if_pos h3] at hbr ⊢
        cases hv : pyFloat (strTail s 2) with
        | some v => rw [hv] at hbr; simp at hbr
        | none => exact ⟨_, rfl, msg_ne_empty _ s _ (by decide)⟩
      · rw [if_neg h3] at hbr ⊢
        by_cases h4 : strEnds s "Ti" = true
        · rw [if_pos h4] at hbr ⊢
          cases hv : pyFloat (strTail s 2) with
          | some v => rw [hv] at hbr; simp at hbr
          | none => exact ⟨_, rfl, msg_ne_empty _ s _ (by decide)⟩
        · rw [if_neg h4] at hbr ⊢
          by_cases h5 : strEnds s "K" = true
          · rw [if_pos h5] at hbr ⊢
            cases hv : pyFloat (strTail s 1) with
            | some v => rw [hv] at hbr; simp at hbr
            | none => exact ⟨_, rfl, msg_ne_empty _ s _ (by decide)⟩
          · rw [if_neg h5] at hbr ⊢
            by_cases h6 : strEnds s "M" = true
            · rw [if_pos h6] at hbr ⊢
              cases hv : pyFloat (strTail s 1) with
              | some v => rw [hv] at hbr; simp at hbr
              | none => exact ⟨_, rfl, msg_ne_empty _ s _ (by decide)⟩
            · rw [if_neg h6] at hbr ⊢
              by_cases h7 : strEnds s "G" = true
              · rw [if_pos h7] at hbr ⊢
                cases hv : pyFloat (strTail s 1) with
                | some v => rw [hv] at hbr; simp at hbr
                | none => exact ⟨_, rfl, msg_ne_empty _ s _ (by decide)⟩
              · rw [if_neg h7] at hbr ⊢
                by_cases h8 : strEnds s "T" = true
                · rw [if_pos h8] at hbr ⊢
                  cases hv : pyFloat (strTail s 1) with
                  | some v => rw [hv] at hbr; simp at hbr
                  | none => exact ⟨_, rfl, msg_ne_empty _ s _ (by decide)⟩
                · rw [if_neg h8] at hbr ⊢
                  by_cases h9 : strEnds s "m" = true
                  · rw [if_pos h9] at hbr ⊢
                    cases hv : pyFloat (strTail s 1) with
                    | some v => rw [hv] at hbr; simp at hbr
                    | none => exact ⟨_, rfl, msg_ne_empty _ s _ (by decide)⟩
                  · rw [if_neg h9] at hbr ⊢
                    cases hv : pyFloat s with
                    | some v => rw [hv] at hbr; simp at hbr
                    | none => exact ⟨_, rfl, msg_ne_empty _ s _ (by decide)⟩

theorem parse_quota_value_fail_spec (k v : String) (h : quotaFailsB k v = true) :
    ∃ f, parse_quota_value k v = (0, some f) ∧ f ≠ "" := by
  unfold quotaFailsB at h
  unfold parse_quota_value
  by_cases hc : strHasSub k "cpu" = true
  · rw [if_pos hc] at h ⊢; exact parse_cpu_fail_spec v h
  · rw [if_neg hc] at h ⊢
    by_cases hmem : (strHasSub k "memory" || strHasSub k "storage" ||
        strHasSub k "ephemeral-storage") = true
    · rw [if_pos hmem] at h ⊢; exact parse_mem_fail_spec v h
    · rw [if_neg hmem] at h ⊢
      by_cases hcount : (strHasPre k "count/" || countKeys.contains k) = true
      · rw [if_pos hcount] at h ⊢
        cases hv : pyInt v with
        | some n => rw [hv] at h; simp at h
        | none =>
          exact ⟨_, rfl, msg_ne_empty _ _ _ (append_data_ne "Parse error for \x27" k (by decide))⟩
      · rw [if_neg hcount] at h ⊢
        cases hv : pyFloat v with
        | some q => rw [hv] at h; simp at h
        | none =>
          exact ⟨_, rfl, msg_ne_empty _ _ _ (append_data_ne "Parse error for \x27" k (by decide))⟩

/-- Claim C2: the three normalizers are total functions into pairs (which
embeds that they never raise), and on every structurally failing quantity
string they return value zero together with a flag that is a nonempty
string, never a flagless zero. -/
theorem claim_C2_thm :
    (∀ s : String, ∃ v f, parse_cpu (some s) = (v, f) ∧ ∃ v2 f2,
      parse_mem (some s) = (v2, f2)) ∧
    (∀ s, cpuFailsB s = true → ∃ f, parse_cpu (some s) = (0, some f) ∧ f ≠ "") ∧
    (∀ s, memFailsB s = true → ∃ f, parse_mem (some s) = (0, some f) ∧ f ≠ "") ∧
    (∀ k v, quotaFailsB k v = true → ∃ f, parse_quota_value k v = (0, some f) ∧ f ≠ "") :=
  ⟨fun s => ⟨_, _, rfl, _, _, rfl⟩,
   parse_cpu_fail_spec, parse_mem_fail_spec, parse_quota_value_fail_spec⟩

theorem claim_C2_witness :
    cpuFailsB "abc" = true ∧ (∃ f, parse_cpu (some "abc") = (0, some f) ∧ f ≠ "") ∧
    memFailsB "1.5Ki" = true ∧ (∃ f, parse_mem (some "1.5Ki") = (0, some f) ∧ f ≠ "") ∧
    quotaFailsB "pods" "1.5" = true ∧
    (∃ f, parse_quota_value "pods" "1.5" = (0, some f) ∧ f ≠ "") :=
  ⟨by decide, claim_C2_thm.2.1 "abc" (by decide),
   by decide, claim_C2_thm.2.2.1 "1.5Ki" (by decide),
   by decide, claim_C2_thm.2.2.2 "pods" "1.5" (by decide)⟩

/-- Claim C10 counterexample: the flag text of the source starts with a
capital letter, so the claimed lowercase flag text is not returned. -/
theorem claim_C10_counterexample :
    parse_cpu (some "abc") ≠ ((0 : ℚ), some "invalid CPU value \x27abc\x27") := by
  with_unfolding_all decide

/-- Claim C10 (amended): parse_cpu applied to the malformed string abc
returns value zero with the flag Invalid CPU value quoting the input,
spelled with a capital I, and does not raise. -/
theorem claim_C10_thm :
    parse_cpu (some "abc") = ((0 : ℚ), some "Invalid CPU value \x27abc\x27") := by
  with_unfolding_all decide

theorem mem_parse_quota (items : List QuotaItem) (it : QuotaItem) (hit : it ∈ items)
    (kv : String × String) (hkv : kv ∈ it.hard) :
    quotaRow it.used kv.1 kv.2 ∈ parse_quota items := by
  induction items with
  | nil => cases hit
  | cons hd tl ih =>
    rw [parse_quota]
    rcases List.mem_cons.mp hit with heq | htl
    · subst heq
      exact List.mem_append_left _ (List.mem_map.mpr ⟨kv, hkv, rfl⟩)
    · exact List.mem_append_right _ (ih htl)

/-- Claim C3: for every quota object and every resource name of its hard
map, the emitted row uses the used value with default zero string, and its
usage percent is the rounded used over hard ratio when the normalized hard
value is positive and zero when the normalized hard value is zero; the
guard makes a division error impossible. -/
theorem claim_C3_thm (items : List QuotaItem) (it : QuotaItem) (hit : it ∈ items)
    (kv : String × String) (hkv : kv ∈ it.hard) :
    quotaRow it.used kv.1 kv.2 ∈ parse_quota items ∧
    (assocLookup it.used kv.1 = none → (quotaRow it.used kv.1 kv.2).used = "0") ∧
    ((parse_quota_value kv.1 kv.2).1 > 0 →
      (quotaRow it.used kv.1 kv.2).usage_percent =
        pyRoundTo 1 ((parse_quota_value kv.1 (assocGetD it.used kv.1 "0")).1 /
          (parse_quota_value kv.1 kv.2).1 * 100)) ∧
    ((parse_quota_value kv.1 kv.2).1 = 0 → (quotaRow it.used kv.1 kv.2).usage_percent = 0) := by
  refine ⟨mem_parse_quota items it hit kv hkv, ?_, ?_, ?_⟩
  · intro h
    simp [quotaRow, assocGetD, h]
  · intro h
    simp only [quotaRow]
    rw [if_pos h]
  · intro h
    simp only [quotaRow]
    rw [if_neg (by rw [h]; exact lt_irrefl 0)]

theorem claim_C3_witness :
    (quotaItemA ∈ quotaItemsEx ∧ ("limits.cpu", "2") ∈ quotaItemA.hard ∧
      quotaRow quotaItemA.used "limits.cpu" "2" ∈ parse_quota quotaItemsEx ∧
      (quotaRow quotaItemA.used "limits.cpu" "2").usage_percent = 25) ∧
    (quotaItemB ∈ quotaItemsEx ∧ ("pods", "0") ∈ quotaItemB.hard ∧
      (parse_quota_value "pods" "0").1 = 0 ∧
      (quotaRow quotaItemB.used "pods" "0").usage_percent = 0) :=
  ⟨⟨by decide, by decide,
    (claim_C3_thm quotaItemsEx quotaItemA (by decide) ("limits.cpu", "2") (by decide)).1,
    by with_unfolding_all decide⟩,
   ⟨by decide, by decide, by with_unfolding_all decide,
    (claim_C3_thm quotaItemsEx quotaItemB (by decide) ("pods", "0") (by decide)).2.2.2
      (by with_unfolding_all decide)⟩⟩

/-- Claim C6: the container classifier emits the flag CPU req greater than
lim exactly when both the CPU request and the CPU limit fields are present
(that is, distinct from the dash placeholder of an absent field) and the
raw request string exceeds the raw limit string in the code point
lexicographic order Python uses to compare strings. -/
theorem claim_C6_thm (qos : String) (c : Container) :
    "CPU req > lim" ∈ (containerRow qos c).flags ↔
      (assocGetD c.requests "cpu" "-" ≠ "-" ∧ assocGetD c.limits "cpu" "-" ≠ "-" ∧
       assocGetD c.limits "cpu" "-" < assocGetD c.requests "cpu" "-") := by
  have hne1 : ("CPU req > lim" : String) ≠ "Missing resources" := by decide
  have hne2 : ("CPU req > lim" : String) ≠ "No requests" := by decide
  have hne3 : ("CPU req > lim" : String) ≠ "No limits" := by decide
  simp only [containerRow, List.mem_append]
  split_ifs with h1 h2 h3 h4 <;>
    simp_all [Bool.and_eq_true, bne_iff_ne, decide_eq_true_eq]

/-- Claim C9: a container whose six resource fields are all absent gets
the flags Missing resources, No requests and No limits and its rendered
flag string is not OK; a container that triggers none of the four anomaly
rules gets an empty flag list rendered as the single flag OK. -/
theorem claim_C9_thm (qos : String) (c : Container) :
    ((assocLookup c.requests "cpu" = none ∧ assocLookup c.limits "cpu" = none ∧
      assocLookup c.requests "memory" = none ∧ assocLookup c.limits "memory" = none ∧
      assocLookup c.requests "ephemeral-storage" = none ∧
      assocLookup c.limits "ephemeral-storage" = none) →
      ("Missing resources" ∈ (containerRow qos c).flags ∧
       "No requests" ∈ (containerRow qos c).flags ∧
       "No limits" ∈ (containerRow qos c).flags ∧
       (containerRow qos c).flagsStr ≠ "OK")) ∧
    ((¬(assocGetD c.requests "cpu" "-" = "-" ∧ assocGetD c.requests "memory" "-" = "-" ∧
        assocGetD c.requests "ephemeral-storage" "-" = "-") ∧
      ¬(assocGetD c.limits "cpu" "-" = "-" ∧ assocGetD c.limits "memory" "-" = "-" ∧
        assocGetD c.limits "ephemeral-storage" "-" = "-") ∧
      ¬(assocGetD c.requests "cpu" "-" ≠ "-" ∧ assocGetD c.limits "cpu" "-" ≠ "-" ∧
        assocGetD c.limits "cpu" "-" < assocGetD c.requests "cpu" "-")) →
      ((containerRow qos c).flags = [] ∧ (containerRow qos c).flagsStr = "OK")) := by
  constructor
  · rintro ⟨h1, h2, h3, h4, h5, h6⟩
    simp [containerRow, assocGetD, h1, h2, h3, h4, h5, h6]
    decide
  · rintro ⟨hr, hl, hc⟩
    have c1 : ¬((!(assocGetD c.requests "cpu" "-" != "-" ||
          assocGetD c.requests "memory" "-" != "-" ||
          assocGetD c.requests "ephemeral-storage" "-" != "-") &&
        !(assocGetD c.limits "cpu" "-" != "-" || assocGetD c.limits "memory" "-" != "-" ||
          assocGetD c.limits "ephemeral-storage" "-" != "-")) = true) := by
      intro hb
      simp at hb
      exact hr ⟨by tauto, by tauto, by tauto⟩
    have c2 : ¬((assocGetD c.requests "cpu" "-" == "-" &&
        assocGetD c.requests "memory" "-" == "-" &&
        assocGetD c.requests "ephemeral-storage" "-" == "-") = true) := by
      intro hb
      simp at hb
      exact hr ⟨by tauto, by tauto, by tauto⟩
    have c3 : ¬((assocGetD c.limits "cpu" "-" == "-" &&
        assocGetD c.limits "memory" "-" == "-" &&
        assocGetD c.limits "ephemeral-storage" "-" == "-") = true) := by
      intro hb
      simp at hb
      exact hl ⟨by tauto, by tauto, by tauto⟩
    have c4 : ¬((assocGetD c.requests "cpu" "-" != "-" &&
        assocGetD c.limits "cpu" "-" != "-" &&
        decide (assocGetD c.limits "cpu" "-" < assocGetD c.requests "cpu" "-")) = true) := by
      intro hb
      rw [Bool.and_eq_true, Bool.and_eq_true] at hb
      obtain ⟨⟨a, b⟩, d⟩ := hb
      exact hc ⟨bne_iff_ne.mp a, bne_iff_ne.mp b, of_decide_eq_true d⟩
    simp only [containerRow]
    rw [if_neg c1, if_neg c2, if_neg c3, if_neg c4]
    simp

theorem claim_C9_witness :
    ((assocLookup (Container.mk "c" [] []).requests "cpu" = none ∧
      assocLookup (Container.mk "c" [] []).limits "cpu" = none ∧
      assocLookup (Container.mk "c" [] []).requests "memory" = none ∧
      assocLookup (Container.mk "c" [] []).limits "memory" = none ∧
      assocLookup (Container.mk "c" [] []).requests "ephemeral-storage" = none ∧
      assocLookup (Container.mk "c" [] []).limits "ephemeral-storage" = none) ∧
     "Missing resources" ∈ (containerRow "Unknown" (Container.mk "c" [] [])).flags ∧
     "No requests" ∈ (containerRow "Unknown" (Container.mk "c" [] [])).flags ∧
     "No limits" ∈ (containerRow "Unknown" (Container.mk "c" [] [])).flags ∧
     (containerRow "Unknown" (Container.mk "c" [] [])).flagsStr ≠ "OK") ∧
    ((containerRow "Guaranteed"
        (Container.mk "c" [("cpu", "1"), ("memory", "1Gi")]
          [("cpu", "2"), ("memory", "1Gi")])).flags = [] ∧
     (containerRow "Guaranteed"
        (Container.mk "c" [("cpu", "1"), ("memory", "1Gi")]
          [("cpu", "2"), ("memory", "1Gi")])).flagsStr = "OK") :=
  ⟨⟨by decide,
    (claim_C9_thm "Unknown" (Container.mk "c" [] [])).1 (by decide)⟩,
   (claim_C9_thm "Guaranteed"
      (Container.mk "c" [("cpu", "1"), ("memory", "1Gi")] [("cpu", "2"), ("memory", "1Gi")])).2
     (by refine ⟨?_, ?_, ?_⟩ <;> · intro h; revert h; with_unfolding_all decide)⟩

theorem strEnds_of_split (s t : String) (pre : List Char) (h : s.data = pre ++ t.data) :
    strEnds s t = true := by
  simp only [strEnds, h, List.length_append, Bool.and_eq_true, decide_eq_true_eq]
  constructor
  · exact Nat.le_add_left _ _
  · have : pre.length + t.data.length - t.data.length = pre.length := by omega
    rw [this, List.drop_left]

theorem renderFlag_suffix (p : String × ℕ) (h : p.2 > 1) :
    strEnds (renderFlag p) ("(" ++ toString p.2 ++ "x)") = true := by
  have hr : renderFlag p = p.1 ++ " (" ++ toString p.2 ++ "x)" := by
    simp [renderFlag, h]
  rw [hr]
  refine strEnds_of_split _ _ (p.1.data ++ [' ']) ?_
  show ((p.1.data ++ [' ', '(']) ++ (toString p.2).data) ++ ['x', ')'] =
    (p.1.data ++ [' ']) ++ ((['('] ++ (toString p.2).data) ++ ['x', ')'])
  simp

/-- Claim C8: the rendered flag display is OK exactly on the empty Counter
and otherwise joins the Counter items with a semicolon separator after
sorting them (lexicographic order on the pairs, hence on the flag texts,
which are distinct keys); an item with count above one is rendered with
the count suffix in parentheses and an item with count one is rendered as
the bare flag text. -/
theorem claim_C8_thm (c : List (String × ℕ)) :
    (c = [] → format_flag_counts c = "OK") ∧
    (c ≠ [] →
      format_flag_counts c = String.intercalate "; " ((sortedItems c).map renderFlag) ∧
      (sortedItems c).Perm c ∧
      List.Sorted pairLe (sortedItems c) ∧
      (∀ p ∈ c,
        (p.2 > 1 → renderFlag p = p.1 ++ " (" ++ toString p.2 ++ "x)" ∧
          strEnds (renderFlag p) ("(" ++ toString p.2 ++ "x)") = true) ∧
        (p.2 ≤ 1 → renderFlag p = p.1))) := by
  constructor
  · intro h
    subst h
    rfl
  · intro h
    refine ⟨?_, ?_, ?_, ?_⟩
    · simp [format_flag_counts, h]
    · exact List.perm_insertionSort pairLe c
    · exact List.sorted_insertionSort pairLe c
    · intro p _
      constructor
      · intro h2
        exact ⟨by simp [renderFlag, h2], renderFlag_suffix p h2⟩
      · intro h2
        simp [renderFlag]
        omega

theorem claim_C8_witness :
    format_flag_counts [] = "OK" ∧
    (sortedItems [("B", 1), ("A", 2)]).Perm [("B", 1), ("A", 2)] ∧
    List.Sorted pairLe (sortedItems [("B", 1), ("A", 2)]) ∧
    format_flag_counts [("B", 1), ("A", 2)] = "A (2x); B" :=
  ⟨(claim_C8_thm []).1 rfl,
   ((claim_C8_thm [("B", 1), ("A", 2)]).2 (by decide)).2.1,
   ((claim_C8_thm [("B", 1), ("A", 2)]).2 (by decide)).2.2.1,
   by with_unfolding_all decide⟩

theorem podCovered_eq_true_iff (pdbs : List PDB) (p : Pod) :
    podCovered ((pdbs.map (fun pdb => pdb.matchLabels)).filter (fun sel => !sel.isEmpty)) p
      = true ↔ coveredProp pdbs p := by
  unfold podCovered coveredProp selMatches
  rw [List.any_eq_true]
  constructor
  · rintro ⟨sel, hsel, hmatch⟩
    rw [List.mem_filter] at hsel
    obtain ⟨hmem, hne⟩ := hsel
    obtain ⟨pdb, hpdb, rfl⟩ := List.mem_map.mp hmem
    refine ⟨pdb, hpdb, ?_, ?_⟩
    · intro h
      rw [h] at hne
      simp at hne
    · intro kv hkv
      exact beq_iff_eq.mp (List.all_eq_true.mp hmatch kv hkv)
  · rintro ⟨pdb, hpdb, hne, hall⟩
    refine ⟨pdb.matchLabels, ?_, ?_⟩
    · rw [List.mem_filter]
      refine ⟨List.mem_map.mpr ⟨pdb, hpdb, rfl⟩, ?_⟩
      simpa using hne
    · rw [List.all_eq_true]
      intro kv hkv
      exact beq_iff_eq.mpr (hall kv hkv)

/-- Claim C4: a pod is covered exactly when at least one nonempty PDB
matchLabels selector matches every one of its keys against the pod labels
(empty selectors are skipped); the pods are partitioned into covered and
uncovered lists; the coverage percentage is the covered count over the
total count times one hundred rounded to a whole number, and zero when
there are no pods. -/
theorem claim_C4_thm (pods : List Pod) (pdbs : List PDB) :
    (∀ p, p ∈ (get_namespace_coverage pods pdbs).covered_pods ↔
      p ∈ pods ∧ coveredProp pdbs p) ∧
    (∀ p, p ∈ (get_namespace_coverage pods pdbs).uncovered_pods ↔
      p ∈ pods ∧ ¬coveredProp pdbs p) ∧
    (get_namespace_coverage pods pdbs).total_pods = pods.length ∧
    (pods ≠ [] →
      (get_namespace_coverage pods pdbs).coverage_percentage =
        pyRoundTo 0 (((get_namespace_coverage pods pdbs).covered_pods.length : ℚ) /
          (pods.length : ℚ) * 100) ∧
      ∃ z : ℤ, (get_namespace_coverage pods pdbs).coverage_percentage = (z : ℚ)) ∧
    (pods = [] → (get_namespace_coverage pods pdbs).total_pods = 0 ∧
      (get_namespace_coverage pods pdbs).coverage_percentage = 0) := by
  refine ⟨?_, ?_, ?_, ?_, ?_⟩
  · intro p
    simp only [get_namespace_coverage, List.mem_filter]
    rw [podCovered_eq_true_iff]
  · intro p
    simp only [get_namespace_coverage, List.mem_filter]
    constructor
    · rintro ⟨hp, hb⟩
      refine ⟨hp, fun hc => ?_⟩
      rw [← podCovered_eq_true_iff pdbs p] at hc
      rw [hc] at hb
      simp at hb
    · rintro ⟨hp, hc⟩
      refine ⟨hp, ?_⟩
      rw [← podCovered_eq_true_iff pdbs p] at hc
      simp [Bool.not_eq_true] at hc ⊢
      exact hc
  · rfl
  · intro h
    have hpos : 0 < pods.length := List.length_pos.mpr h
    constructor
    · simp only [get_namespace_coverage]
      rw [if_pos hpos]
    · exact ⟨pyRound (((pods.filter
        (podCovered ((pdbs.map (fun pdb => pdb.matchLabels)).filter
          (fun sel => !sel.isEmpty)))).length : ℚ) / (pods.length : ℚ) * 100 * 10 ^ 0),
        by simp only [get_namespace_coverage, pyRoundTo]; rw [if_pos hpos]; norm_num⟩
  · intro h
    subst h
    constructor
    · rfl
    · have h0 : pyRoundTo 0 (0 : ℚ) = 0 := by with_unfolding_all decide
      simp [get_namespace_coverage, h0]

theorem claim_C4_witness :
    ((get_namespace_coverage [] []).total_pods = 0 ∧
      (get_namespace_coverage [] []).coverage_percentage = 0) ∧
    ((get_namespace_coverage tenPods [pdbX]).coverage_percentage =
        pyRoundTo 0 (((get_namespace_coverage tenPods [pdbX]).covered_pods.length : ℚ) /
          ((tenPods.length : ℚ)) * 100) ∧
      ∃ z : ℤ, (get_namespace_coverage tenPods [pdbX]).coverage_percentage = (z : ℚ)) ∧
    (get_namespace_coverage tenPods [pdbX]).covered_pods.length = 7 ∧
    (get_namespace_coverage tenPods [pdbX]).uncovered_pods.length = 3 ∧
    (get_namespace_coverage tenPods [pdbX]).coverage_percentage = 70 :=
  ⟨(claim_C4_thm [] []).2.2.2.2 rfl,
   (claim_C4_thm tenPods [pdbX]).2.2.2.1 (by decide),
   by with_unfolding_all decide,
   by with_unfolding_all decide,
   by with_unfolding_all decide⟩

theorem assocLookup_updGroup (g : List (String × Aggregate)) (k k2 : String)
    (f : Aggregate → Aggregate) :
    assocLookup (updGroup g k f) k2 =
      if k2 = k then some (f (assocGetD g k emptyAggregate)) else assocLookup g k2 := by
  induction g with
  | nil =>
    by_cases h : k2 = k
    · subst h
      simp [updGroup, assocLookup, assocGetD]
    · simp [updGroup, assocLookup, assocGetD, h, Ne.symm h]
  | cons hd tl ih =>
    obtain ⟨k3, a⟩ := hd
    by_cases h3 : k3 = k
    · subst h3
      by_cases h2 : k2 = k3
      · subst h2
        simp [updGroup, assocLookup, assocGetD]
      · simp [updGroup, assocLookup, assocGetD, h2, Ne.symm h2]
    · by_cases h2 : k2 = k3
      · subst h2
        simp [updGroup, assocLookup, assocGetD, h3, Ne.symm h3, ih]
      · simp [updGroup, assocLookup, assocGetD, h2, h3, Ne.symm h2, Ne.symm h3, ih]

theorem assocLookup_addPod (g : List (String × Aggregate)) (p : Pod) (k : String) :
    assocLookup (addPod g p) k =
      if k = extract_controller_name p then
        some (addPodToAgg (assocGetD g (extract_controller_name p) emptyAggregate) p)
      else assocLookup g k := by
  unfold addPod
  rw [assocLookup_updGroup]

theorem lookup_foldl_addPod (pods : List Pod) :
    ∀ (g : List (String × Aggregate)) (k : String),
    assocLookup (pods.foldl addPod g) k =
      if podsForKey pods k = [] then assocLookup g k
      else some ((podsForKey pods k).foldl addPodToAgg (assocGetD g k emptyAggregate)) := by
  induction pods with
  | nil =>
    intro g k
    simp [podsForKey]
  | cons p ps ih =>
    intro g k
    rw [List.foldl_cons, ih]
    by_cases hk : extract_controller_name p = k
    · have hfk : podsForKey (p :: ps) k = p :: podsForKey ps k := by
        simp [podsForKey, List.filter_cons, hk]
      rw [hfk]
      have hlk : assocLookup (addPod g p) k =
          some (addPodToAgg (assocGetD g k emptyAggregate) p) := by
        rw [assocLookup_addPod, hk, if_pos rfl]
      have hgd : assocGetD (addPod g p) k emptyAggregate =
          addPodToAgg (assocGetD g k emptyAggregate) p := by
        simp [assocGetD, hlk]
      by_cases hps : podsForKey ps k = []
      · rw [if_pos hps, hlk]
        simp [hps]
      · rw [if_neg hps, hgd]
        simp [hps, List.foldl_cons]
    · have hfk : podsForKey (p :: ps) k = podsForKey ps k := by
        simp [podsForKey, List.filter_cons, hk]
      rw [hfk]
      have hlk : assocLookup (addPod g p) k = assocLookup g k := by
        rw [assocLookup_addPod, if_neg (fun heq => hk heq.symm)]
      have hgd : assocGetD (addPod g p) k emptyAggregate =
          assocGetD g k emptyAggregate := by
        simp [assocGetD, hlk]
      rw [hlk, hgd]

theorem lookup_groupPods (pods : List Pod) (k : String) :
    assocLookup (groupPods pods) k =
      if podsForKey pods k = [] then none
      else some ((podsForKey pods k).foldl addPodToAgg emptyAggregate) := by
  unfold groupPods
  rw [lookup_foldl_addPod]
  simp [assocGetD, assocLookup]

theorem counterCount_incr (c : List (String × ℕ)) (s k : String) :
    counterCount (counterIncr c s) k =
      counterCount c k + (if s = k then 1 else 0) := by
  induction c with
  | nil =>
    by_cases h : s = k
    · subst h
      simp [counterIncr, counterCount, assocLookup]
    · simp [counterIncr, counterCount, assocLookup, h]
  | cons hd tl ih =>
    obtain ⟨k2, n⟩ := hd
    by_cases h2 : k2 = s
    · subst h2
      by_cases hk : k2 = k
      · subst hk
        simp [counterIncr, counterCount, assocLookup]
      · simp [counterIncr, counterCount, assocLookup, hk]
    · by_cases hk : k2 = k
      · subst hk
        have hsk : ¬s = k2 := fun heq => h2 heq.symm
        simp [counterIncr, counterCount, assocLookup, h2, hsk]
      · have hstep : counterIncr ((k2, n) :: tl) s = (k2, n) :: counterIncr tl s := by
          simp [counterIncr, h2]
        rw [hstep]
        show counterCount ((k2, n) :: counterIncr tl s) k =
          counterCount ((k2, n) :: tl) k + if s = k then 1 else 0
        simp only [counterCount, assocLookup, if_neg hk]
        exact ih

theorem counterCount_tally_ne (new : List (Option String)) :
    ∀ (fl : List (String × ℕ)) (k : String), (∀ f ∈ new, f ≠ some k) →
    counterCount (flagsTally fl new) k = counterCount fl k := by
  induction new with
  | nil =>
    intro fl k _
    rfl
  | cons f rest ih =>
    intro fl k h
    cases f with
    | none =>
      rw [flagsTally]
      exact ih fl k (fun x hx => h x (List.mem_cons_of_mem _ hx))
    | some s =>
      have hs : s ≠ k := by
        intro heq
        exact h (some s) (List.mem_cons_self _ _) (by rw [heq])
      rw [flagsTally]
      by_cases he : s = ""
      · rw [if_pos he]
        exact ih fl k (fun x hx => h x (List.mem_cons_of_mem _ hx))
      · rw [if_neg he]
        rw [ih (counterIncr fl s) k (fun x hx => h x (List.mem_cons_of_mem _ hx))]
        rw [counterCount_incr, if_neg hs]
        omega

theorem head_append3 (a b c : String) (ch : Char) (rest : List Char)
    (ha : a.data = ch :: rest) : (a ++ b ++ c).data.head? = some ch := by
  show ((a.data ++ b.data) ++ c.data).head? = some ch
  rw [ha]
  rfl

theorem parse_cpu_flag_head (x : Option String) (f : String)
    (h : (parse_cpu x).2 = some f) :
    f.data.head? = some 'I' ∨ f.data.head? = some 'U' := by
  cases x with
  | none => simp [parse_cpu] at h
  | some s =>
    simp only [parse_cpu] at h
    by_cases h0 : s = ""
    · rw [if_pos h0] at h
      simp at h
    · rw [if_neg h0] at h
      by_cases hm : strEnds s "m" = true
      · rw [if_pos hm] at h
        cases hv : pyFloat (strTail s 1) with
        | some v => rw [hv] at h; simp at h
        | none =>
          rw [hv] at h
          simp at h
          right
          rw [← h]
          exact head_append3 _ _ _ 'U' _ rfl
      · rw [if_neg hm] at h
        by_cases hd : pyIsDigit (replaceFirstDot s) = true
        · rw [if_pos hd] at h
          cases hv : pyFloat s with
          | some v => rw [hv] at h; simp at h
          | none =>
            rw [hv] at h
            simp at h
            right
            rw [← h]
            exact head_append3 _ _ _ 'U' _ rfl
        · rw [if_neg hd] at h
          simp at h
          left
          rw [← h]
          exact head_append3 _ _ _ 'I' _ rfl

theorem parse_mem_flag_head (x : Option String) (f : String)
    (h : (parse_mem x).2 = some f) :
    f.data.head? = some 'U' ∨ f.data.head? = some 'N' := by
  cases x with
  | none => simp [parse_mem] at h
  | some s =>
    simp only [parse_mem] at h
    by_cases h0 : s = ""
    · rw [if_pos h0] at h
      simp at h
    · rw [if_neg h0] at h
      by_cases h1 : strEnds s "Ki" = true
      · rw [if_pos h1] at h
        cases hv : pyInt (strTail s 2) with
        | some v => rw [hv] at h; simp at h
        | none =>
          rw [hv] at h
          simp at h
          left
          rw [← h]
          exact head_append3 _ _ _ 'U' _ rfl
      · rw [if_neg h1] at h
        by_cases h2 : strEnds s "Mi" = true
        · rw [if_pos h2] at h
          cases hv : pyFloat (strTail s 2) with
          | some v => rw [hv] at h; simp at h
          | none =>
            rw [hv] at h
            simp at h
            left
            rw [← h]
            exact head_append3 _ _ _ 'U' _ rfl
        · rw [if_neg h2] at h
          by_cases h3 : strEnds s "Gi" = true
          · rw [if_pos h3] at h
            cases hv : pyFloat (strTail s 2) with
            | some v => rw [hv] at h; simp at h
            | none =>
              rw [hv] at h
              simp at h
              left
              rw [← h]
              exact head_append3 _ _ _ 'U' _ rfl
          · rw [if_neg h3] at h
            by_cases h4 : strEnds s "Ti" = true
            · rw [if_pos h4] at h
              cases hv : pyFloat (strTail s 2) with
              | some v => rw [hv] at h; simp at h
              | none =>
                rw [hv] at h
                simp at h
                left
                rw [← h]
                exact head_append3 _ _ _ 'U' _ rfl
            · rw [if_neg h4] at h
              by_cases h5 : strEnds s "K" = true
              · rw [if_pos h5] at h
                cases hv : pyFloat (strTail s 1) with
                | some v => rw [hv] at h; simp at h
                | none =>
                  rw [hv] at h
                  simp at h
                  left
                  rw [← h]
                  exact head_append3 _ _ _ 'U' _ rfl
              · rw [if_neg h5] at h
                by_cases h6 : strEnds s "M" = true
                · rw [if_pos h6] at h
                  cases hv : pyFloat (strTail s 1) with
                  | some v => rw [hv] at h; simp at h
                  | none =>
                    rw [hv] at h
                    simp at h
                    left
                    rw [← h]
                    exact head_append3 _ _ _ 'U' _ rfl
                · rw [if_neg h6] at h
                  by_cases h7 : strEnds s "G" = true
                  · rw [if_pos h7] at h
                    cases hv : pyFloat (strTail s 1) with
                    | some v => rw [hv] at h; simp at h
                    | none =>
                      rw [hv] at h
                      simp at h
                      left
                      rw [← h]
                      exact head_append3 _ _ _ 'U' _ rfl
                  · rw [if_neg h7] at h
                    by_cases h8 : strEnds s "T" = true
                    · rw [if_pos h8] at h
                      cases hv : pyFloat (strTail s 1) with
                      | some v => rw [hv] at h; simp at h
                      | none =>
                        rw [hv] at h
                        simp at h
                        left
                        rw [← h]
                        exact head_append3 _ _ _ 'U' _ rfl
                    · rw [if_neg h8] at h
                      by_cases h9 : strEnds s "m" = true
                      · rw [if_pos h9] at h
                        cases hv : pyFloat (strTail s 1) with
                        | some v =>
                          rw [hv] at h
                          simp at h
                          right
                          rw [← h]
                          rfl
                        | none =>
                          rw [hv] at h
                          simp at h
                          left
                          rw [← h]
                          exact head_append3 _ _ _ 'U' _ rfl
                      · rw [if_neg h9] at h
                        cases hv : pyFloat s with
                        | some v => rw [hv] at h; simp at h
                        | none =>
                          rw [hv] at h
                          simp at h
                          left
                          rw [← h]
                          exact head_append3 _ _ _ 'U' _ rfl

theorem cpu_flag_ne_standalone (x : Option String) :
    (parse_cpu x).2 ≠ some "Standalone pod without controller" := by
  intro h
  rcases parse_cpu_flag_head x _ h with h1 | h1 <;> exact absurd h1 (by decide)

theorem mem_flag_ne_standalone (x : Option String) :
    (parse_mem x).2 ≠ some "Standalone pod without controller" := by
  intro h
  rcases parse_mem_flag_head x _ h with h1 | h1 <;> exact absurd h1 (by decide)

theorem contFlags_ne_standalone (c : Container) :
    ∀ x ∈ contFlags c, x ≠ some "Standalone pod without controller" := by
  intro x hx
  simp only [contFlags, List.mem_cons, List.not_mem_nil, or_false] at hx
  rcases hx with rfl | rfl | rfl | rfl | rfl | rfl
  · exact cpu_flag_ne_standalone _
  · exact cpu_flag_ne_standalone _
  · exact mem_flag_ne_standalone _
  · exact mem_flag_ne_standalone _
  · exact mem_flag_ne_standalone _
  · exact mem_flag_ne_standalone _

theorem addContainer_spec (a : Aggregate) (c : Container) :
    (addContainer a c).pod_count = a.pod_count ∧
    (addContainer a c).cpu_req = a.cpu_req + contCpuReq c ∧
    (addContainer a c).cpu_lim = a.cpu_lim + contCpuLim c ∧
    (addContainer a c).mem_req = a.mem_req + contMemReq c ∧
    (addContainer a c).mem_lim = a.mem_lim + contMemLim c ∧
    (addContainer a c).es_req = a.es_req + contEsReq c ∧
    (addContainer a c).es_lim = a.es_lim + contEsLim c ∧
    (addContainer a c).flags = flagsTally a.flags (contFlags c) :=
  ⟨rfl, rfl, rfl, rfl, rfl, rfl, rfl, rfl⟩

theorem foldl_addContainer_spec (cs : List Container) :
    ∀ a : Aggregate,
    (cs.foldl addContainer a).pod_count = a.pod_count ∧
    (cs.foldl addContainer a).cpu_req = a.cpu_req + (cs.map contCpuReq).sum ∧
    (cs.foldl addContainer a).cpu_lim = a.cpu_lim + (cs.map contCpuLim).sum ∧
    (cs.foldl addContainer a).mem_req = a.mem_req + (cs.map contMemReq).sum ∧
    (cs.foldl addContainer a).mem_lim = a.mem_lim + (cs.map contMemLim).sum ∧
    (cs.foldl addContainer a).es_req = a.es_req + (cs.map contEsReq).sum ∧
    (cs.foldl addContainer a).es_lim = a.es_lim + (cs.map contEsLim).sum ∧
    counterCount (cs.foldl addContainer a).flags "Standalone pod without controller" =
      counterCount a.flags "Standalone pod without controller" := by
  induction cs with
  | nil =>
    intro a
    simp
  | cons c cs ih =>
    intro a
    rw [List.foldl_cons]
    obtain ⟨hpc, h1, h2, h3, h4, h5, h6, hf⟩ := ih (addContainer a c)
    obtain ⟨gpc, g1, g2, g3, g4, g5, g6, gfl⟩ := addContainer_spec a c
    refine ⟨by rw [hpc, gpc], ?_, ?_, ?_, ?_, ?_, ?_, ?_⟩
    · rw [h1, g1, List.map_cons, List.sum_cons]; ring
    · rw [h2, g2, List.map_cons, List.sum_cons]; ring
    · rw [h3, g3, List.map_cons, List.sum_cons]; ring
    · rw [h4, g4, List.map_cons, List.sum_cons]; ring
    · rw [h5, g5, List.map_cons, List.sum_cons]; ring
    · rw [h6, g6, List.map_cons, List.sum_cons]; ring
    · rw [hf, gfl, counterCount_tally_ne (contFlags c) a.flags _
        (contFlags_ne_standalone c)]

theorem addPodToAgg_eq (a : Aggregate) (p : Pod) :
    addPodToAgg a p = p.containers.foldl addContainer
      { pod_count := a.pod_count + 1, cpu_req := a.cpu_req, cpu_lim := a.cpu_lim,
        mem_req := a.mem_req, mem_lim := a.mem_lim, es_req := a.es_req, es_lim := a.es_lim,
        flags := if strHasPre (extract_controller_name p) "standalone/" = true then
          counterIncr a.flags "Standalone pod without controller" else a.flags } := by
  unfold addPodToAgg
  by_cases hs : strHasPre (extract_controller_name p) "standalone/" = true
  · simp [hs]
  · simp [hs]

theorem addPodToAgg_spec (a : Aggregate) (p : Pod) :
    (addPodToAgg a p).pod_count = a.pod_count + 1 ∧
    (addPodToAgg a p).cpu_req = a.cpu_req + podSum contCpuReq p ∧
    (addPodToAgg a p).cpu_lim = a.cpu_lim + podSum contCpuLim p ∧
    (addPodToAgg a p).mem_req = a.mem_req + podSum contMemReq p ∧
    (addPodToAgg a p).mem_lim = a.mem_lim + podSum contMemLim p ∧
    (addPodToAgg a p).es_req = a.es_req + podSum contEsReq p ∧
    (addPodToAgg a p).es_lim = a.es_lim + podSum contEsLim p ∧
    counterCount (addPodToAgg a p).flags "Standalone pod without controller" =
      counterCount a.flags "Standalone pod without controller" +
        (if strHasPre (extract_controller_name p) "standalone/" = true then 1 else 0) := by
  rw [addPodToAgg_eq]
  obtain ⟨hpc, h1, h2, h3, h4, h5, h6, hf⟩ := foldl_addContainer_spec p.containers
    { pod_count := a.pod_count + 1, cpu_req := a.cpu_req, cpu_lim := a.cpu_lim,
      mem_req := a.mem_req, mem_lim := a.mem_lim, es_req := a.es_req, es_lim := a.es_lim,
      flags := if strHasPre (extract_controller_name p) "standalone/" = true then
        counterIncr a.flags "Standalone pod without controller" else a.flags }
  refine ⟨by rw [hpc], by rw [h1]; rfl, by rw [h2]; rfl, by rw [h3]; rfl,
    by rw [h4]; rfl, by rw [h5]; rfl, by rw [h6]; rfl, ?_⟩
  rw [hf]
  by_cases hs : strHasPre (extract_controller_name p) "standalone/" = true
  · rw [hs]
    simp [counterCount_incr]
  · have hs2 : strHasPre (extract_controller_name p) "standalone/" = false := by
      cases hb : strHasPre (extract_controller_name p) "standalone/" with
      | false => rfl
      | true => exact absurd hb hs
    rw [hs2]
    simp

theorem foldl_addPodToAgg_spec (ps : List Pod) :
    ∀ a : Aggregate,
    (ps.foldl addPodToAgg a).pod_count = a.pod_count + ps.length ∧
    (ps.foldl addPodToAgg a).cpu_req = a.cpu_req + (ps.map (podSum contCpuReq)).sum ∧
    (ps.foldl addPodToAgg a).cpu_lim = a.cpu_lim + (ps.map (podSum contCpuLim)).sum ∧
    (ps.foldl addPodToAgg a).mem_req = a.mem_req + (ps.map (podSum contMemReq)).sum ∧
    (ps.foldl addPodToAgg a).mem_lim = a.mem_lim + (ps.map (podSum contMemLim)).sum ∧
    (ps.foldl addPodToAgg a).es_req = a.es_req + (ps.map (podSum contEsReq)).sum ∧
    (ps.foldl addPodToAgg a).es_lim = a.es_lim + (ps.map (podSum contEsLim)).sum ∧
    counterCount (ps.foldl addPodToAgg a).flags "Standalone pod without controller" =
      counterCount a.flags "Standalone pod without controller" +
        ps.countP (fun p => strHasPre (extract_controller_name p) "standalone/") := by
  induction ps with
  | nil =>
    intro a
    simp
  | cons p ps ih =>
    intro a
    rw [List.foldl_cons]
    obtain ⟨hpc, h1, h2, h3, h4, h5, h6, hf⟩ := ih (addPodToAgg a p)
    obtain ⟨gpc, g1, g2, g3, g4, g5, g6, gfl⟩ := addPodToAgg_spec a p
    refine ⟨by rw [hpc, gpc]; simp; omega, ?_, ?_, ?_, ?_, ?_, ?_, ?_⟩
    · rw [h1, g1, List.map_cons, List.sum_cons]; ring
    · rw [h2, g2, List.map_cons, List.sum_cons]; ring
    · rw [h3, g3, List.map_cons, List.sum_cons]; ring
    · rw [h4, g4, List.map_cons, List.sum_cons]; ring
    · rw [h5, g5, List.map_cons, List.sum_cons]; ring
    · rw [h6, g6, List.map_cons, List.sum_cons]; ring
    · rw [hf, gfl, List.countP_cons]
      by_cases hs : strHasPre (extract_controller_name p) "standalone/" = true
      · simp [hs]
        omega
      · simp [hs]

theorem countP_const_key (k : String) (ps : List Pod)
    (h : ∀ p ∈ ps, extract_controller_name p = k) :
    ps.countP (fun p => strHasPre (extract_controller_name p) "standalone/") =
      if strHasPre k "standalone/" = true then ps.length else 0 := by
  induction ps with
  | nil => simp
  | cons p ps ih =>
    have hk := h p (List.mem_cons_self _ _)
    rw [List.countP_cons, ih (fun q hq => h q (List.mem_cons_of_mem _ hq)), hk]
    by_cases hs : strHasPre k "standalone/" = true
    · simp [hs]
    · simp [hs]

/-- Claim C5: the aggregate stored under every controller key counts
exactly the pods whose controller key it is, and each of its six summed
quantities is the arithmetic sum over those pods of the per-container
normalized values, never an average. -/
theorem claim_C5_thm (pods : List Pod) (k : String) (a : Aggregate)
    (h : assocLookup (groupPods pods) k = some a) :
    a.pod_count = (podsForKey pods k).length ∧
    a.cpu_req = ((podsForKey pods k).map (podSum contCpuReq)).sum ∧
    a.cpu_lim = ((podsForKey pods k).map (podSum contCpuLim)).sum ∧
    a.mem_req = ((podsForKey pods k).map (podSum contMemReq)).sum ∧
    a.mem_lim = ((podsForKey pods k).map (podSum contMemLim)).sum ∧
    a.es_req = ((podsForKey pods k).map (podSum contEsReq)).sum ∧
    a.es_lim = ((podsForKey pods k).map (podSum contEsLim)).sum := by
  rw [lookup_groupPods] at h
  by_cases hp : podsForKey pods k = []
  · rw [if_pos hp] at h
    cases h
  · rw [if_neg hp] at h
    obtain rfl := Option.some.inj h
    obtain ⟨hpc, h1, h2, h3, h4, h5, h6, _⟩ :=
      foldl_addPodToAgg_spec (podsForKey pods k) emptyAggregate
    exact ⟨by rw [hpc]; simp [emptyAggregate], by rw [h1]; simp [emptyAggregate],
      by rw [h2]; simp [emptyAggregate], by rw [h3]; simp [emptyAggregate],
      by rw [h4]; simp [emptyAggregate], by rw [h5]; simp [emptyAggregate],
      by rw [h6]; simp [emptyAggregate]⟩

/-- Claim C7 (amended): the controller key of a pod with an owner
reference is the lowercased kind of the first owner joined to its name
with a slash, and the key of an ownerless pod is standalone slash the pod
name; the standalone flag is recorded exactly once per pod whose
controller key starts with standalone slash — in particular once per
ownerless pod, but also for a pod whose owner kind lowercases to the word
standalone, which the original claim excluded. -/
theorem claim_C7_thm :
    (∀ (pods : List Pod) (k : String) (a : Aggregate),
      assocLookup (groupPods pods) k = some a →
      counterCount a.flags "Standalone pod without controller" =
        if strHasPre k "standalone/" = true then (podsForKey pods k).length else 0) ∧
    (∀ (p : Pod) (o : OwnerRef) (os : List OwnerRef),
      p.metadata.ownerReferences = o :: os →
      extract_controller_name p = pyLower o.kind ++ "/" ++ o.name) ∧
    (∀ p : Pod, p.metadata.ownerReferences = [] →
      extract_controller_name p = "standalone/" ++ p.metadata.name) := by
  refine ⟨?_, ?_, ?_⟩
  · intro pods k a h
    rw [lookup_groupPods] at h
    by_cases hp : podsForKey pods k = []
    · rw [if_pos hp] at h
      cases h
    · rw [if_neg hp] at h
      obtain rfl := Option.some.inj h
      have H := (foldl_addPodToAgg_spec (podsForKey pods k) emptyAggregate).2.2.2.2.2.2.2
      have hmem : ∀ p ∈ podsForKey pods k, extract_controller_name p = k := by
        intro p hp2
        exact beq_iff_eq.mp (List.mem_filter.mp hp2).2
      rw [H, countP_const_key k (podsForKey pods k) hmem]
      simp [emptyAggregate, counterCount, assocLookup]
  · intro p o os h
    simp only [extract_controller_name, h]
  · intro p h
    simp only [extract_controller_name, h]

theorem claim_C5_witness :
    assocLookup (groupPods podsC5) "deployment/web" = some aggC5 ∧
    aggC5.pod_count = (podsForKey podsC5 "deployment/web").length ∧
    aggC5.cpu_req = ((podsForKey podsC5 "deployment/web").map (podSum contCpuReq)).sum ∧
    aggC5.cpu_req = 1 / 2 ∧ aggC5.pod_count = 2 := by
  have h : assocLookup (groupPods podsC5) "deployment/web" = some aggC5 := by
    with_unfolding_all decide
  exact ⟨h, (claim_C5_thm podsC5 "deployment/web" aggC5 h).1,
    (claim_C5_thm podsC5 "deployment/web" aggC5 h).2.1, rfl, rfl⟩

/-- Claim C7 counterexample: this pod carries an owner reference, so under
the claim its aggregate would never receive the standalone flag, yet the
source records the flag once because the computed key starts with the
standalone prefix. -/
theorem claim_C7_counterexample :
    podC7x.metadata.ownerReferences ≠ [] ∧
    assocLookup (groupPods [podC7x]) "standalone/x" = some aggC7x ∧
    counterCount aggC7x.flags "Standalone pod without controller" = 1 ∧
    ([podC7x].countP (fun p => p.metadata.ownerReferences.isEmpty)) = 0 :=
  ⟨by decide, by with_unfolding_all decide, by decide, by decide⟩

theorem claim_C7_witness :
    assocLookup (groupPods [podSolo]) "standalone/solo" = some aggSolo ∧
    counterCount aggSolo.flags "Standalone pod without controller" =
      (if strHasPre "standalone/solo" "standalone/" = true then
        (podsForKey [podSolo] "standalone/solo").length else 0) ∧
    podOwned.metadata.ownerReferences = [ownerWeb] ∧
    extract_controller_name podOwned =
      pyLower ownerWeb.kind ++ "/" ++ ownerWeb.name ∧
    podSolo.metadata.ownerReferences = [] ∧
    extract_controller_name podSolo = "standalone/" ++ podSolo.metadata.name := by
  have h : assocLookup (groupPods [podSolo]) "standalone/solo" = some aggSolo := by
    with_unfolding_all decide
  exact ⟨h, claim_C7_thm.1 [podSolo] "standalone/solo" aggSolo h,
    rfl, claim_C7_thm.2.1 podOwned ownerWeb [] rfl,
    rfl, claim_C7_thm.2.2 podSolo rfl⟩
